import Mathlib

/-!
Shallow embedding of the node-image resolution engine of
karpenter-provider-azure (pkg/providers/imagefamily/image.go).

The Go provider is stateful (an in-memory expiring cache shared by all
entry points) and talks to remote Azure APIs.  The embedding threads the
cache state explicitly, models the current instant as a natural number
(Go nanoseconds), and models the remote world as a record of pure
functions (`ProviderEnv`).  Every remote invocation is recorded in an
explicit trace (`List RemoteCall`) so that claims about which remote
calls are issued can be stated and decided.

Remote records are modelled with their documented payload (the community
listing yields records "each carrying a version name and a publish
timestamp"; gallery records carry an ID and a publish timestamp), so the
pointer fields that are always populated by the API are plain values
here.  The one nil-pointer that the code itself can manufacture — the
zero-value seed candidate of `GetCustomImageID` — is modelled by an
`Option` candidate, and dereferencing it yields the `Outcome.crash`
result (a Go runtime panic).
-/

/-- A scheduling requirement (key, operator, values) as carried by a
default image descriptor.  Compatibility checking itself is performed by
the external karpenter-core scheduler (`Requirements.Compatible` with
`AllowUndefinedWellKnownAndRestrictedLabels`), a collaborator outside
this repository; it is modelled as the boolean predicate carried by
`InstanceType`. -/
structure Requirement where
  key : String
  op : String
  values : List String
deriving DecidableEq, Repr

/-- pkg/providers/imagefamily DefaultImageOutput: one entry of an image
family's static catalog. -/
structure DefaultImageOutput where
  publicGalleryURL : String
  imageDefinition : String
  distro : String
  galleryResourceGroup : String
  galleryName : String
  requirements : List Requirement
deriving DecidableEq, Repr

/-- The slice of cloudprovider.InstanceType read by the engine: a name
and the requirement-compatibility predicate.  `compatible reqs` models
`instanceType.Requirements.Compatible(reqs,
AllowUndefinedWellKnownAndRestrictedLabels) == nil`. -/
structure InstanceType where
  name : String
  compatible : List Requirement → Bool

/-- v1alpha2.CustomImageTerm: user-authored pointer to a gallery image. -/
structure CustomImageTerm where
  distroName : String
  galleryName : String
  galleryResourceGroupName : String
  gallerySubscriptionID : String
  name : String
  version : String
deriving DecidableEq, Repr

/-- The zero value of CustomImageTerm; `reflect.DeepEqual(term,
CustomImageTerm{})` is equality with this value. -/
def CustomImageTerm.zero : CustomImageTerm :=
  { distroName := "", galleryName := "", galleryResourceGroupName := ""
    gallerySubscriptionID := "", name := "", version := "" }

/-- The slice of v1alpha2.AKSNodeClass.Spec read by the engine. -/
structure AKSNodeClassSpec where
  customImageTerm : CustomImageTerm
deriving DecidableEq, Repr

/-- armcompute.CommunityGalleryImageVersion as consumed by the engine: a
version name and a publish timestamp (Go time modelled as Nat). -/
structure CommunityGalleryImageVersion where
  name : String
  publishedDate : Nat
deriving DecidableEq, Repr

/-- One record of the shared-gallery (SIG) node-image version list. -/
structure NodeImageVersion where
  sku : String
  version : String
deriving DecidableEq, Repr

/-- armcompute.GalleryImageVersion as consumed by the custom-image path:
a resource ID and a publish timestamp. -/
structure GalleryImageVersion where
  id : String
  publishedDate : Nat
deriving DecidableEq, Repr

/-- One remote API invocation, as recorded in the call trace. -/
inductive RemoteCall where
  | communityList (location publicGalleryURL communityImageName : String)
  | nodeImageList (location subscription : String)
  | galleryPointGet (resourceGroup gallery image version : String)
  | galleryList (resourceGroup gallery image : String)
deriving DecidableEq, Repr

/-- Result of a Go function that can return a value, return an error, or
crash with a runtime panic (nil-pointer dereference). -/
inductive Outcome (α : Type) where
  | ok (val : α)
  | err (msg : String)
  | crash (msg : String)
deriving DecidableEq, Repr

/-- The remote world and provider configuration: location/subscription of
the provider, the shared-vs-community configuration flag
(options.UseSIG) and SIG subscription, and the four remote APIs as pure
functions.  Paginated APIs are modelled as the list of page results the
pager yields in order (a page is either an error or a list of records). -/
structure ProviderEnv where
  location : String
  subscription : String
  useSIG : Bool
  sigSubscriptionID : String
  communityPages : String → String → String →
    List (Except String (List CommunityGalleryImageVersion))
  nodeImageList : String → String → Except String (List NodeImageVersion)
  galleryGet : String → String → String → String → Except String GalleryImageVersion
  galleryListPages : String → String → String →
    List (Except String (List GalleryImageVersion))

/-- The go-cache state: entries (key, value, absolute expiration). -/
abbrev Cache : Type := List (String × String × Nat)

/-- go-cache Get: the entry for the key, unless its expiration has
passed (`time.Now().UnixNano() > item.Expiration` means expired). -/
def cacheGet (c : Cache) (now : Nat) (k : String) : Option String :=
  match c.find? (fun e => e.1 == k) with
  | some e => if now ≤ e.2.2 then some e.2.1 else none
  | none => none

/-- go-cache Set: store the value with expiration now + ttl (newest
entry shadows any older one for the same key). -/
def cacheSet (c : Cache) (now : Nat) (k v : String) (ttl : Nat) : Cache :=
  (k, v, now + ttl) :: c

/-- imageExpirationInterval = time.Hour * 24 * 3, in nanoseconds. -/
def imageExpirationInterval : Nat := 3 * 24 * 60 * 60 * 1000000000

/-- sharedImageGalleryImageIDFormat:
/subscriptions/%s/resourceGroups/%s/providers/Microsoft.Compute/galleries/%s/images/%s/versions/%s -/
def sharedImageGalleryImageID (sub rg gallery image version : String) : String :=
  "/subscriptions/" ++ sub ++ "/resourceGroups/" ++ rg ++
    "/providers/Microsoft.Compute/galleries/" ++ gallery ++ "/images/" ++
    image ++ "/versions/" ++ version

/-- BuildImageIDCIG: communityImageIDFormat =
/CommunityGalleries/%s/images/%s/versions/%s applied to
(publicGalleryURL, communityImageName, imageVersion). -/
def BuildImageIDCIG (publicGalleryURL communityImageName imageVersion : String) : String :=
  "/CommunityGalleries/" ++ publicGalleryURL ++ "/images/" ++
    communityImageName ++ "/versions/" ++ imageVersion

/-- The error text of getSIGImageID when no SKU matches. -/
def noMatchingVersionError (imageDefinition : String) : String :=
  "failed to get the latest version of the image " ++ imageDefinition

/-- The error text of Get when no catalog entry is compatible. -/
def noCompatibleImagesError (instanceTypeName : String) : String :=
  "no compatible images found for instance type " ++ instanceTypeName

/-- The message of a Go nil-pointer runtime panic. -/
def nilIDDereference : String :=
  "runtime error: invalid memory address or nil pointer dereference"

/-- One step of the latest-version scan: the candidate is replaced iff it
is still the zero-value seed or the new record's publish date is
strictly later (`PublishedDate.After`, a strictly-greater comparison). -/
def pickStep {α : Type} (date : α → Nat) (top : Option α) (v : α) : Option α :=
  match top with
  | none => some v
  | some t => if date t < date v then some v else some t

/-- Drive a pager: pages are consumed in order, a page error aborts the
scan and is returned, records of successful pages are folded through
`pickStep`. -/
def pagedFold {α : Type} (date : α → Nat) :
    List (Except String (List α)) → Option α → Except String (Option α)
  | [], top => .ok top
  | .error e :: _, _ => .error e
  | .ok recs :: rest, top => pagedFold date rest (recs.foldl (pickStep date) top)

/-- The concatenation of all page records when every page succeeds,
`none` when some page is an error. -/
def flattenPages {α : Type} : List (Except String (List α)) → Option (List α)
  | [] => some []
  | .error _ :: _ => none
  | .ok recs :: rest => (flattenPages rest).map (fun rs => recs ++ rs)

/-- latestNodeImageVersionCommunity: paginate the community listing for
(location, publicGalleryURL, communityImageName) and keep the version
with the latest publish date; a zero-value final candidate yields the
empty name (`lo.FromPtr` of a nil pointer). -/
def Provider.latestNodeImageVersionCommunity (env : ProviderEnv)
    (publicGalleryURL communityImageName : String) :
    Except String String × List RemoteCall :=
  let pages := env.communityPages env.location publicGalleryURL communityImageName
  (match pagedFold CommunityGalleryImageVersion.publishedDate pages none with
   | .error e => .error e
   | .ok none => .ok ""
   | .ok (some top) => .ok top.name,
   [RemoteCall.communityList env.location publicGalleryURL communityImageName])

/-- getCIGImageID: resolve the latest community version and format the
community image ID. -/
def Provider.getCIGImageID (env : ProviderEnv)
    (publicGalleryURL communityImageName : String) :
    Except String String × List RemoteCall :=
  match Provider.latestNodeImageVersionCommunity env publicGalleryURL communityImageName with
  | (.error e, tr) => (.error e, tr)
  | (.ok v, tr) => (.ok (BuildImageIDCIG publicGalleryURL communityImageName v), tr)

/-- getSIGImageID: one NodeImageVersions.List call, then the first record
whose SKU equals the descriptor's image definition wins. -/
def Provider.getSIGImageID (env : ProviderEnv) (imgStub : DefaultImageOutput) :
    Except String String × List RemoteCall :=
  (match env.nodeImageList env.location env.subscription with
   | .error e => .error e
   | .ok versions =>
     match versions.find? (fun v => imgStub.imageDefinition == v.sku) with
     | some v => .ok (sharedImageGalleryImageID env.sigSubscriptionID
         imgStub.galleryResourceGroup imgStub.galleryName imgStub.imageDefinition v.version)
     | none => .error (noMatchingVersionError imgStub.imageDefinition),
   [RemoteCall.nodeImageList env.location env.subscription])

/-- resolveImageID: SIG or CIG depending on the useSIG flag; note the CIG
call here passes (PublicGalleryURL, ImageDefinition) in the declared
parameter order of getCIGImageID. -/
def Provider.resolveImageID (env : ProviderEnv) (defaultImage : DefaultImageOutput)
    (useSIG : Bool) : Except String String × List RemoteCall :=
  if useSIG then Provider.getSIGImageID env defaultImage
  else Provider.getCIGImageID env defaultImage.publicGalleryURL defaultImage.imageDefinition

/-- The flag-dependent cache key of GetLatestImageID: sharedImageKey =
galleryName/imageDefinition, communityImageKey =
publicGalleryURL/imageDefinition. -/
def defaultImageKey (useSIG : Bool) (d : DefaultImageOutput) : String :=
  if useSIG then d.galleryName ++ "/" ++ d.imageDefinition
  else d.publicGalleryURL ++ "/" ++ d.imageDefinition

/-- GetLatestImageID: cache-wrapped flag-dispatched resolution of a
default image descriptor. -/
def Provider.GetLatestImageID (env : ProviderEnv) (cache : Cache) (now : Nat)
    (defaultImage : DefaultImageOutput) :
    Except String String × Cache × List RemoteCall :=
  match cacheGet cache now (defaultImageKey env.useSIG defaultImage) with
  | some imageID => (.ok imageID, cache, [])
  | none =>
    match Provider.resolveImageID env defaultImage env.useSIG with
    | (.error e, tr) => (.error e, cache, tr)
    | (.ok imageID, tr) =>
      (.ok imageID,
       cacheSet cache now (defaultImageKey env.useSIG defaultImage) imageID imageExpirationInterval,
       tr)

/-- The cache key of GetCustomImageID: the fully qualified resource path
(including the term's version, possibly empty). -/
def customImageCacheKey (t : CustomImageTerm) : String :=
  sharedImageGalleryImageID t.gallerySubscriptionID t.galleryResourceGroupName
    t.galleryName t.name t.version

/-- GetCustomImageID: cache-wrapped custom-image resolution.  On a miss,
a non-empty term version does one point lookup; an empty version
paginates the gallery listing seeded with the zero-value candidate.  The
final `*imageCandidate.ID` dereference crashes when the candidate is
still the seed (empty listing). -/
def Provider.GetCustomImageID (env : ProviderEnv) (cache : Cache) (now : Nat)
    (term : CustomImageTerm) : Outcome String × Cache × List RemoteCall :=
  match cacheGet cache now (customImageCacheKey term) with
  | some imageID => (.ok imageID, cache, [])
  | none =>
    if term.version ≠ "" then
      match env.galleryGet term.galleryResourceGroupName term.galleryName
          term.name term.version with
      | .error e =>
        (.err e, cache,
         [RemoteCall.galleryPointGet term.galleryResourceGroupName term.galleryName
            term.name term.version])
      | .ok gv =>
        (.ok gv.id,
         cacheSet cache now (customImageCacheKey term) gv.id imageExpirationInterval,
         [RemoteCall.galleryPointGet term.galleryResourceGroupName term.galleryName
            term.name term.version])
    else
      match pagedFold GalleryImageVersion.publishedDate
          (env.galleryListPages term.galleryResourceGroupName term.galleryName term.name)
          none with
      | .error e =>
        (.err e, cache,
         [RemoteCall.galleryList term.galleryResourceGroupName term.galleryName term.name])
      | .ok none =>
        (.crash nilIDDereference, cache,
         [RemoteCall.galleryList term.galleryResourceGroupName term.galleryName term.name])
      | .ok (some cand) =>
        (.ok cand.id,
         cacheSet cache now (customImageCacheKey term) cand.id imageExpirationInterval,
         [RemoteCall.galleryList term.galleryResourceGroupName term.galleryName term.name])

/-- Provider.Get: if the node class's custom image term is the zero value
take the default-catalog path (first compatible entry, resolved by the
community resolver — note the source passes (ImageDefinition,
PublicGalleryURL) to getCIGImageID, whose parameters are
(publicGalleryURL, communityImageName)); otherwise resolve the custom
term. -/
def Provider.Get (env : ProviderEnv) (cache : Cache) (now : Nat)
    (nodeClass : AKSNodeClassSpec) (instanceType : InstanceType)
    (defaultImages : List DefaultImageOutput) :
    Outcome (String × String) × Cache × List RemoteCall :=
  if nodeClass.customImageTerm = CustomImageTerm.zero then
    match defaultImages.find? (fun d => instanceType.compatible d.requirements) with
    | some d =>
      match Provider.getCIGImageID env d.imageDefinition d.publicGalleryURL with
      | (.ok imageID, tr) => (.ok (d.distro, imageID), cache, tr)
      | (.error e, tr) => (.err e, cache, tr)
    | none => (.err (noCompatibleImagesError instanceType.name), cache, [])
  else
    match Provider.GetCustomImageID env cache now nodeClass.customImageTerm with
    | (.ok imageID, c, tr) =>
      (.ok (nodeClass.customImageTerm.distroName, imageID), c, tr)
    | (.err e, c, tr) => (.err e, c, tr)
    | (.crash m, c, tr) => (.crash m, c, tr)

/-! ## Helper lemmas -/

/-- `List.find?` returns `some a` exactly when the list splits as
`l1 ++ a :: l2` with `p a` true and `p` false on all of `l1`: the first
satisfying element wins. -/
theorem find?_eq_some_first {α : Type} (p : α → Bool) :
    ∀ (l : List α) (a : α), l.find? p = some a ↔
      ∃ l1 l2, l = l1 ++ a :: l2 ∧ p a = true ∧ ∀ x ∈ l1, p x = false := by
  intro l
  induction l with
  | nil =>
    intro a
    constructor
    · intro h; simp [List.find?] at h
    · rintro ⟨l1, l2, h, -, -⟩
      exact absurd h (by simp)
  | cons b t ih =>
    intro a
    constructor
    · intro h
      cases hb : p b with
      | true =>
        rw [List.find?_cons_of_pos _ hb] at h
        exact ⟨[], t, by simpa using (Option.some.inj h).symm ▸ rfl,
          (Option.some.inj h) ▸ hb, by simp⟩
      | false =>
        rw [List.find?_cons_of_neg _ (by simp [hb])] at h
        obtain ⟨l1, l2, ht, hpa, hall⟩ := (ih a).mp h
        refine ⟨b :: l1, l2, by rw [ht]; rfl, hpa, ?_⟩
        intro x hx
        rcases List.mem_cons.mp hx with hx | hx
        · exact hx ▸ hb
        · exact hall x hx
    · rintro ⟨l1, l2, hl, hpa, hall⟩
      cases l1 with
      | nil =>
        obtain ⟨hb, ht⟩ := List.cons.inj (by simpa using hl)
        rw [hb]
        exact List.find?_cons_of_pos _ hpa
      | cons c l1 =>
        obtain ⟨hb, ht⟩ := List.cons.inj (by simpa using hl)
        have hpb : p b = false := hb ▸ hall c (List.mem_cons_self c l1)
        rw [List.find?_cons_of_neg _ (by simp [hpb])]
        exact (ih a).mpr ⟨l1, l2, ht, hpa, fun x hx => hall x (List.mem_cons_of_mem c hx)⟩

/-- Scanning records from a seeded candidate: the final candidate has the
maximal date, and either it is the seed itself or it is the first record
whose date strictly exceeds the seed's and all records before it. -/
theorem foldl_pickStep_some {α : Type} (date : α → Nat) :
    ∀ (rs : List α) (t : α), ∃ m, rs.foldl (pickStep date) (some t) = some m ∧
      date t ≤ date m ∧ (∀ s ∈ rs, date s ≤ date m) ∧
      (m = t ∨ ∃ pre post, rs = pre ++ m :: post ∧ date t < date m ∧
        ∀ s ∈ pre, date s < date m) := by
  intro rs
  induction rs with
  | nil =>
    intro t
    exact ⟨t, rfl, le_refl _, by simp, Or.inl rfl⟩
  | cons r rest ih =>
    intro t
    by_cases hd : date t < date r
    · obtain ⟨m, hfold, hle, hall, hcase⟩ := ih r
      refine ⟨m, ?_, le_trans (le_of_lt hd) hle, ?_, ?_⟩
      · simpa [pickStep, hd] using hfold
      · intro s hs
        rcases List.mem_cons.mp hs with hs | hs
        · exact hs ▸ hle
        · exact hall s hs
      · rcases hcase with hm | ⟨pre, post, hsplit, hlt, hpre⟩
        · exact Or.inr ⟨[], rest, by simp [hm], hm ▸ hd, by simp⟩
        · refine Or.inr ⟨r :: pre, post, by rw [hsplit]; rfl, lt_trans hd hlt, ?_⟩
          intro s hs
          rcases List.mem_cons.mp hs with hs | hs
          · exact hs ▸ hlt
          · exact hpre s hs
    · obtain ⟨m, hfold, hle, hall, hcase⟩ := ih t
      refine ⟨m, ?_, hle, ?_, ?_⟩
      · simpa [pickStep, hd] using hfold
      · intro s hs
        rcases List.mem_cons.mp hs with hs | hs
        · exact hs ▸ le_trans (le_of_not_lt hd) hle
        · exact hall s hs
      · rcases hcase with hm | ⟨pre, post, hsplit, hlt, hpre⟩
        · exact Or.inl hm
        · refine Or.inr ⟨r :: pre, post, by rw [hsplit]; rfl, hlt, ?_⟩
          intro s hs
          rcases List.mem_cons.mp hs with hs | hs
          · exact hs ▸ lt_of_le_of_lt (le_of_not_lt hd) hlt
          · exact hpre s hs

/-- Scanning a non-empty record list from the zero-value seed: the final
candidate is the first record attaining the maximal date. -/
theorem foldl_pickStep_cons {α : Type} (date : α → Nat) (r : α) (rest : List α) :
    ∃ m pre post, (r :: rest).foldl (pickStep date) none = some m ∧
      r :: rest = pre ++ m :: post ∧
      (∀ s ∈ r :: rest, date s ≤ date m) ∧ (∀ s ∈ pre, date s < date m) := by
  have hstep : (r :: rest).foldl (pickStep date) none =
      rest.foldl (pickStep date) (some r) := by
    simp [pickStep]
  obtain ⟨m, hfold, hle, hall, hcase⟩ := foldl_pickStep_some date rest r
  rcases hcase with hm | ⟨pre, post, hsplit, hlt, hpre⟩
  · refine ⟨m, [], rest, hstep ▸ hfold, by simp [hm], ?_, by simp⟩
    intro s hs
    rcases List.mem_cons.mp hs with hs | hs
    · exact hs ▸ hle
    · exact hall s hs
  · refine ⟨m, r :: pre, post, hstep ▸ hfold, by rw [hsplit]; rfl, ?_, ?_⟩
    · intro s hs
      rcases List.mem_cons.mp hs with hs | hs
      · exact hs ▸ hle
      · exact hall s hs
    · intro s hs
      rcases List.mem_cons.mp hs with hs | hs
      · exact hs ▸ hlt
      · exact hpre s hs

/-- When every page succeeds, driving the pager equals folding the
concatenated records. -/
theorem pagedFold_flatten {α : Type} (date : α → Nat) :
    ∀ (pages : List (Except String (List α))) (rs : List α) (top : Option α),
      flattenPages pages = some rs →
      pagedFold date pages top = .ok (rs.foldl (pickStep date) top) := by
  intro pages
  induction pages with
  | nil =>
    intro rs top h
    simp only [flattenPages, Option.some.injEq] at h
    subst h
    rfl
  | cons page rest ih =>
    intro rs top h
    cases page with
    | error e => simp [flattenPages] at h
    | ok recs =>
      simp only [flattenPages, Option.map_eq_some'] at h
      obtain ⟨rs2, hrest, hcat⟩ := h
      rw [← hcat]
      simp only [pagedFold]
      rw [ih rs2 (recs.foldl (pickStep date) top) hrest, List.foldl_append]

/-- A freshly stored cache entry is returned for any instant up to its
expiration. -/
theorem cacheGet_cacheSet_hit (c : Cache) (now now2 : Nat) (k v : String) (ttl : Nat)
    (h : now2 ≤ now + ttl) : cacheGet (cacheSet c now k v ttl) now2 k = some v := by
  simp [cacheGet, cacheSet, List.find?_cons_of_pos, h]

/-- A key that misses the cache keeps missing at any later instant (its
entry is absent or already expired). -/
theorem cacheGet_none_mono (c : Cache) (now now2 : Nat) (k : String)
    (h : cacheGet c now k = none) (hle : now ≤ now2) : cacheGet c now2 k = none := by
  unfold cacheGet at h ⊢
  cases hf : c.find? (fun e => e.1 == k) with
  | none => rfl
  | some e =>
    rw [hf] at h
    by_cases hexp : now ≤ e.2.2
    · simp [hexp] at h
    · have : ¬ now2 ≤ e.2.2 := fun hc => hexp (le_trans hle hc)
      simp [this]

/-- A successful cache-miss GetCustomImageID stores exactly its result
under the custom key. -/
theorem getCustomImageID_ok_cacheSet (env : ProviderEnv) (cache : Cache) (now : Nat)
    (term : CustomImageTerm) (v : String) (c : Cache) (tr : List RemoteCall)
    (hmiss : cacheGet cache now (customImageCacheKey term) = none)
    (h : Provider.GetCustomImageID env cache now term = (.ok v, c, tr)) :
    c = cacheSet cache now (customImageCacheKey term) v imageExpirationInterval := by
  simp only [Provider.GetCustomImageID, hmiss] at h
  by_cases hv : term.version = ""
  · simp only [hv, ne_eq, not_true_eq_false, if_false] at h
    cases hp : pagedFold GalleryImageVersion.publishedDate
        (env.galleryListPages term.galleryResourceGroupName term.galleryName term.name)
        none with
    | error e => rw [hp] at h; simp at h
    | ok o =>
      cases o with
      | none => rw [hp] at h; simp at h
      | some cand =>
        rw [hp] at h
        simp only [Prod.mk.injEq, Outcome.ok.injEq] at h
        rw [← h.2.1, ← h.1]
  · simp only [if_pos hv] at h
    cases hg : env.galleryGet term.galleryResourceGroupName term.galleryName
        term.name term.version with
    | error e => rw [hg] at h; simp at h
    | ok gv =>
      rw [hg] at h
      simp only [Prod.mk.injEq, Outcome.ok.injEq] at h
      rw [← h.2.1, ← h.1]

/-- A successful cache-miss GetLatestImageID stores exactly its result
under the flag-dependent key. -/
theorem getLatestImageID_ok_cacheSet (env : ProviderEnv) (cache : Cache) (now : Nat)
    (d : DefaultImageOutput) (v : String) (c : Cache) (tr : List RemoteCall)
    (hmiss : cacheGet cache now (defaultImageKey env.useSIG d) = none)
    (h : Provider.GetLatestImageID env cache now d = (.ok v, c, tr)) :
    c = cacheSet cache now (defaultImageKey env.useSIG d) v imageExpirationInterval := by
  simp only [Provider.GetLatestImageID, hmiss] at h
  cases hr : Provider.resolveImageID env d env.useSIG with
  | mk res tr2 =>
    cases res with
    | error e => rw [hr] at h; simp at h
    | ok i =>
      rw [hr] at h
      simp only [Prod.mk.injEq, Except.ok.injEq] at h
      rw [← h.2.1, ← h.1]

/-! ## Concrete fixtures used by witnesses and counterexamples -/

/-- A catalog entry with distinct gallery URL and image definition. -/
def famEntry : DefaultImageOutput :=
  { publicGalleryURL := "URL", imageDefinition := "DEF", distro := "ubuntu"
    galleryResourceGroup := "rg", galleryName := "gal"
    requirements := [{ key := "kubernetes.io/arch", op := "In", values := ["amd64"] }] }

/-- A one-entry default catalog. -/
def famOne : List DefaultImageOutput := [famEntry]

/-- An instance type compatible with every requirement set. -/
def itAll : InstanceType := { name := "Standard_D2s_v3", compatible := fun _ => true }

/-- An instance type compatible with no requirement set. -/
def itNone : InstanceType := { name := "Standard_NC6", compatible := fun _ => false }

/-- A node class with the custom image term entirely unset. -/
def ncDefault : AKSNodeClassSpec := { customImageTerm := CustomImageTerm.zero }

/-- A custom image term pinned to version 1.2.3. -/
def termPinned : CustomImageTerm :=
  { distroName := "aks-ubuntu-containerd-22.04-gen2", galleryName := "g"
    galleryResourceGroupName := "grg", gallerySubscriptionID := "gsub"
    name := "myimg", version := "1.2.3" }

/-- The same custom image term with version empty (resolve latest). -/
def termLatest : CustomImageTerm := { termPinned with version := "" }

/-- A node class carrying the pinned custom image term. -/
def ncCustom : AKSNodeClassSpec := { customImageTerm := termPinned }

/-- A remote world in community mode: a two-version community listing
(latest is 2.0.0), a one-record SIG list, a pinned point lookup that
echoes its version, and a two-page gallery listing (latest is /img/v2). -/
def envCIG : ProviderEnv :=
  { location := "eastus", subscription := "sub0", useSIG := false
    sigSubscriptionID := "sigsub"
    communityPages := fun _ _ _ =>
      [Except.ok [{ name := "1.0.0", publishedDate := 10 },
                  { name := "2.0.0", publishedDate := 20 }]]
    nodeImageList := fun _ _ => Except.ok [{ sku := "DEF", version := "7.7.7" }]
    galleryGet := fun _ _ _ v => Except.ok { id := "/pinned/" ++ v, publishedDate := 5 }
    galleryListPages := fun _ _ _ =>
      [Except.ok [{ id := "/img/v1", publishedDate := 1 }],
       Except.ok [{ id := "/img/v2", publishedDate := 3 }]] }

/-- The same remote world with the configuration flag in shared mode. -/
def envSIG : ProviderEnv := { envCIG with useSIG := true }

/-- A remote world where every remote lookup fails. -/
def envErr : ProviderEnv :=
  { envCIG with
    communityPages := fun _ _ _ => [Except.error "community boom"]
    nodeImageList := fun _ _ => Except.error "sig boom"
    galleryGet := fun _ _ _ _ => Except.error "point denied"
    galleryListPages := fun _ _ _ => [Except.error "list boom"] }

/-- A remote world whose gallery listing succeeds with zero records. -/
def envEmptyList : ProviderEnv :=
  { envCIG with galleryListPages := fun _ _ _ => [Except.ok []] }

/-- A catalog entry whose requirements no baseline instance satisfies in
the fixtures below (empty requirement list, rejected by `itPick`). -/
def famEntry0 : DefaultImageOutput :=
  { famEntry with distro := "first-incompatible", requirements := [] }

/-- A two-entry catalog whose first entry is incompatible with itPick. -/
def famTwo : List DefaultImageOutput := [famEntry0, famEntry]

/-- An instance type compatible exactly with non-empty requirement sets. -/
def itPick : InstanceType := { name := "Standard_D4s_v3", compatible := fun rs => !rs.isEmpty }

/-- A cache holding unexpired entries under both candidate keys of the
fixture catalog entry (the SIG key gal/DEF and the CIG key URL/DEF). -/
def cacheBoth : Cache :=
  [("gal/DEF", "cachedID", 1000), ("URL/DEF", "cachedID", 1000)]

/-! ## Claim theorems -/

/-- Claim C1: for every node class spec and instance type, if the spec's
customImageTerm equals the zero value Get takes the default-catalog path
and, on a match, returns the matched entry's distro together with the
resolved image ID; otherwise Get takes the custom path and returns
(term.distroName, resolvedID) from the custom-image resolver. -/
theorem get_selects_path_and_returns_pair
    (env : ProviderEnv) (cache : Cache) (now : Nat)
    (nc : AKSNodeClassSpec) (it : InstanceType) (fam : List DefaultImageOutput) :
    (nc.customImageTerm = CustomImageTerm.zero →
      ∀ d imageID tr, fam.find? (fun e => it.compatible e.requirements) = some d →
        Provider.getCIGImageID env d.imageDefinition d.publicGalleryURL = (.ok imageID, tr) →
        Provider.Get env cache now nc it fam = (.ok (d.distro, imageID), cache, tr)) ∧
    (nc.customImageTerm ≠ CustomImageTerm.zero →
      ∀ imageID c tr,
        Provider.GetCustomImageID env cache now nc.customImageTerm = (.ok imageID, c, tr) →
        Provider.Get env cache now nc it fam =
          (.ok (nc.customImageTerm.distroName, imageID), c, tr)) := by
  constructor
  · intro hzero d imageID tr hfind hcig
    simp only [Provider.Get, if_pos hzero, hfind, hcig]
  · intro hnz imageID c tr hcustom
    simp only [Provider.Get, if_neg hnz, hcustom]

/-- Witness for C1: the default path of the fixture returns the entry's
distro with the community-resolved ID; the custom path returns the
term's distroName with the point-lookup ID. -/
theorem get_selects_path_and_returns_pair_witness :
    Provider.Get envCIG [] 0 ncDefault itAll famOne =
      (.ok ("ubuntu", "/CommunityGalleries/DEF/images/URL/versions/2.0.0"), [],
       [RemoteCall.communityList "eastus" "DEF" "URL"]) ∧
    Provider.Get envCIG [] 0 ncCustom itAll famOne =
      (.ok ("aks-ubuntu-containerd-22.04-gen2", "/pinned/1.2.3"),
       cacheSet [] 0 (customImageCacheKey termPinned) "/pinned/1.2.3" imageExpirationInterval,
       [RemoteCall.galleryPointGet "grg" "g" "myimg" "1.2.3"]) := by
  constructor
  · exact (get_selects_path_and_returns_pair envCIG [] 0 ncDefault itAll famOne).1
      rfl famEntry "/CommunityGalleries/DEF/images/URL/versions/2.0.0"
      [RemoteCall.communityList "eastus" "DEF" "URL"] (by decide) rfl
  · exact (get_selects_path_and_returns_pair envCIG [] 0 ncCustom itAll famOne).2
      (by decide) "/pinned/1.2.3"
      (cacheSet [] 0 (customImageCacheKey termPinned) "/pinned/1.2.3" imageExpirationInterval)
      [RemoteCall.galleryPointGet "grg" "g" "myimg" "1.2.3"] rfl

/-- Claim C5: on the default-catalog path the matcher returns the first
entry in declared order whose requirements are compatible with the
instance's requirements (compatibility is the external predicate called
with AllowUndefinedWellKnownAndRestrictedLabels, so undefined well-known
and restricted labels pass); if no entry matches, Get fails with an
error that includes the instance type name. -/
theorem default_catalog_first_match_or_error
    (env : ProviderEnv) (cache : Cache) (now : Nat) (nc : AKSNodeClassSpec)
    (it : InstanceType) (fam : List DefaultImageOutput)
    (hzero : nc.customImageTerm = CustomImageTerm.zero) :
    (∀ pre d post, fam = pre ++ d :: post → it.compatible d.requirements = true →
      (∀ e ∈ pre, it.compatible e.requirements = false) →
      Provider.Get env cache now nc it fam =
        (match Provider.getCIGImageID env d.imageDefinition d.publicGalleryURL with
         | (.ok imageID, tr) => (.ok (d.distro, imageID), cache, tr)
         | (.error e, tr) => (.err e, cache, tr))) ∧
    ((∀ e ∈ fam, it.compatible e.requirements = false) →
      Provider.Get env cache now nc it fam =
        (.err (noCompatibleImagesError it.name), cache, [])) := by
  constructor
  · intro pre d post hsplit hd hpre
    have hfind : fam.find? (fun e => it.compatible e.requirements) = some d :=
      (find?_eq_some_first _ fam d).mpr ⟨pre, post, hsplit, hd, hpre⟩
    simp only [Provider.Get, if_pos hzero, hfind]
  · intro hall
    have hfind : fam.find? (fun e => it.compatible e.requirements) = none :=
      List.find?_eq_none.mpr (fun x hx => by simp [hall x hx])
    simp only [Provider.Get, if_pos hzero, hfind]

/-- Witness for C5: with a two-entry catalog whose first entry is
incompatible, the second entry is selected; with no compatible entry,
the error names the instance type. -/
theorem default_catalog_first_match_or_error_witness :
    Provider.Get envCIG [] 0 ncDefault itPick famTwo =
      (.ok ("ubuntu", "/CommunityGalleries/DEF/images/URL/versions/2.0.0"), [],
       [RemoteCall.communityList "eastus" "DEF" "URL"]) ∧
    Provider.Get envCIG [] 0 ncDefault itNone famOne =
      (.err (noCompatibleImagesError "Standard_NC6"), [], []) := by
  constructor
  · exact ((default_catalog_first_match_or_error envCIG [] 0 ncDefault itPick famTwo rfl).1
      [famEntry0] famEntry [] rfl (by decide) (by decide)).trans rfl
  · exact (default_catalog_first_match_or_error envCIG [] 0 ncDefault itNone famOne rfl).2
      (by decide)

/-- Claim C4 (code bug): Get binds communityImageName := ImageDefinition
and publicGalleryURL := PublicGalleryURL but then calls
getCIGImageID(communityImageName, publicGalleryURL), i.e. it passes the
arguments in the opposite order to getCIGImageID's declared parameters
(publicGalleryURL, communityImageName) — which resolveImageID and the
communityImageKey comment use.  The default-path community image ID is
therefore /CommunityGalleries/imageDefinition/images/publicGalleryURL/versions/version,
not the shape the claim states. -/
theorem get_swaps_gallery_url_and_image_definition :
    famEntry.publicGalleryURL = "URL" ∧ famEntry.imageDefinition = "DEF" ∧
    Provider.Get envCIG [] 0 ncDefault itAll famOne =
      (.ok ("ubuntu", BuildImageIDCIG "DEF" "URL" "2.0.0"), [],
       [RemoteCall.communityList "eastus" "DEF" "URL"]) ∧
    BuildImageIDCIG "DEF" "URL" "2.0.0" ≠ BuildImageIDCIG "URL" "DEF" "2.0.0" := by
  exact ⟨rfl, rfl, by decide, by decide⟩

/-- Counterexample for C2: with the configuration flag in shared mode and
unexpired cache entries under both candidate keys, Get still resolves
through the community listing (a remote call is issued), returns a value
different from the cached one, and leaves the cache unchanged. -/
theorem get_ignores_sig_flag_and_cache_cex :
    envSIG.useSIG = true ∧
    cacheGet cacheBoth 0 (defaultImageKey true famEntry) = some "cachedID" ∧
    cacheGet cacheBoth 0 (defaultImageKey false famEntry) = some "cachedID" ∧
    Provider.Get envSIG cacheBoth 0 ncDefault itAll famOne =
      (.ok ("ubuntu", "/CommunityGalleries/DEF/images/URL/versions/2.0.0"), cacheBoth,
       [RemoteCall.communityList "eastus" "DEF" "URL"]) ∧
    "/CommunityGalleries/DEF/images/URL/versions/2.0.0" ≠ "cachedID" ∧
    [RemoteCall.communityList "eastus" "DEF" "URL"] ≠ ([] : List RemoteCall) := by
  decide

/-- Amended C2: on the default-catalog path Get always resolves the
matched entry via the community resolver directly, regardless of the
shared-vs-community flag and without consulting or updating the expiring
cache; the flag-dependent choice between shared and community resolvers,
wrapped by the expiring cache (cached entry returned without a remote
call, fresh result stored under the backend-specific key), is
implemented in the separate GetLatestImageID entry point. -/
theorem get_default_uncached_community_latest_flagged_cached
    (env : ProviderEnv) (cache : Cache) (now : Nat) (nc : AKSNodeClassSpec)
    (it : InstanceType) (fam : List DefaultImageOutput) (d : DefaultImageOutput) :
    (nc.customImageTerm = CustomImageTerm.zero →
      fam.find? (fun e => it.compatible e.requirements) = some d →
      Provider.Get env cache now nc it fam =
        (match Provider.getCIGImageID env d.imageDefinition d.publicGalleryURL with
         | (.ok imageID, tr) => (.ok (d.distro, imageID), cache, tr)
         | (.error e, tr) => (.err e, cache, tr))) ∧
    (Provider.resolveImageID env d true = Provider.getSIGImageID env d) ∧
    (Provider.resolveImageID env d false =
      Provider.getCIGImageID env d.publicGalleryURL d.imageDefinition) ∧
    (∀ v, cacheGet cache now (defaultImageKey env.useSIG d) = some v →
      Provider.GetLatestImageID env cache now d = (.ok v, cache, [])) ∧
    (cacheGet cache now (defaultImageKey env.useSIG d) = none →
      Provider.GetLatestImageID env cache now d =
        (match Provider.resolveImageID env d env.useSIG with
         | (.error e, tr) => (.error e, cache, tr)
         | (.ok imageID, tr) =>
           (.ok imageID,
            cacheSet cache now (defaultImageKey env.useSIG d) imageID imageExpirationInterval,
            tr))) := by
  refine ⟨?_, rfl, rfl, ?_, ?_⟩
  · intro hzero hfind
    simp only [Provider.Get, if_pos hzero, hfind]
  · intro v hv
    simp only [Provider.GetLatestImageID, hv]
  · intro hmiss
    simp only [Provider.GetLatestImageID, hmiss]

/-- Witness for amended C2: Get with the SIG flag and a populated cache
still returns the community-resolved value; GetLatestImageID returns the
cached value with no remote call on a hit, and on a miss in SIG mode
stores the shared-gallery result under the shared key. -/
theorem get_default_uncached_community_latest_flagged_cached_witness :
    Provider.Get envSIG cacheBoth 0 ncDefault itAll famOne =
      (.ok ("ubuntu", "/CommunityGalleries/DEF/images/URL/versions/2.0.0"), cacheBoth,
       [RemoteCall.communityList "eastus" "DEF" "URL"]) ∧
    Provider.GetLatestImageID envSIG cacheBoth 0 famEntry = (.ok "cachedID", cacheBoth, []) ∧
    Provider.GetLatestImageID envSIG [] 0 famEntry =
      (.ok (sharedImageGalleryImageID "sigsub" "rg" "gal" "DEF" "7.7.7"),
       cacheSet [] 0 "gal/DEF" (sharedImageGalleryImageID "sigsub" "rg" "gal" "DEF" "7.7.7")
         imageExpirationInterval,
       [RemoteCall.nodeImageList "eastus" "sub0"]) := by
  refine ⟨?_, ?_, ?_⟩
  · exact ((get_default_uncached_community_latest_flagged_cached envSIG cacheBoth 0 ncDefault
      itAll famOne famEntry).1 rfl (by decide)).trans rfl
  · exact (get_default_uncached_community_latest_flagged_cached envSIG cacheBoth 0 ncDefault
      itAll famOne famEntry).2.2.2.1 "cachedID" rfl
  · exact ((get_default_uncached_community_latest_flagged_cached envSIG [] 0 ncDefault
      itAll famOne famEntry).2.2.2.2 rfl).trans rfl

/-- Counterexample for C3: two Get calls with identical inputs, the
second at a later instant inside the TTL window and fed the cache state
returned by the first, both issue a community listing remote call — the
second call does remote work again. -/
theorem get_second_call_issues_remote_cex :
    Provider.Get envCIG [] 0 ncDefault itAll famOne =
      (.ok ("ubuntu", "/CommunityGalleries/DEF/images/URL/versions/2.0.0"), [],
       [RemoteCall.communityList "eastus" "DEF" "URL"]) ∧
    Provider.Get envCIG [] 1 ncDefault itAll famOne =
      (.ok ("ubuntu", "/CommunityGalleries/DEF/images/URL/versions/2.0.0"), [],
       [RemoteCall.communityList "eastus" "DEF" "URL"]) ∧
    [RemoteCall.communityList "eastus" "DEF" "URL"] ≠ ([] : List RemoteCall) := by
  decide

/-- Amended C3: idempotence holds for the cache-wrapped entry points:
after a cache-miss call of GetCustomImageID or GetLatestImageID
succeeds, a second call with identical inputs within the TTL window
returns the identical image reference, makes no remote calls, and leaves
the cache unchanged.  (Get's default-catalog path is uncached and issues
a community listing on every call.) -/
theorem cached_entry_points_idempotent
    (env : ProviderEnv) (cache : Cache) (now now2 : Nat)
    (term : CustomImageTerm) (d : DefaultImageOutput)
    (hwin : now2 ≤ now + imageExpirationInterval) :
    (∀ imageID c1 tr,
      cacheGet cache now (customImageCacheKey term) = none →
      Provider.GetCustomImageID env cache now term = (.ok imageID, c1, tr) →
      Provider.GetCustomImageID env c1 now2 term = (.ok imageID, c1, [])) ∧
    (∀ imageID c1 tr,
      cacheGet cache now (defaultImageKey env.useSIG d) = none →
      Provider.GetLatestImageID env cache now d = (.ok imageID, c1, tr) →
      Provider.GetLatestImageID env c1 now2 d = (.ok imageID, c1, [])) := by
  constructor
  · intro imageID c1 tr hmiss h
    have hc1 := getCustomImageID_ok_cacheSet env cache now term imageID c1 tr hmiss h
    subst hc1
    have hhit := cacheGet_cacheSet_hit cache now now2 (customImageCacheKey term) imageID
      imageExpirationInterval hwin
    simp only [Provider.GetCustomImageID, hhit]
  · intro imageID c1 tr hmiss h
    have hc1 := getLatestImageID_ok_cacheSet env cache now d imageID c1 tr hmiss h
    subst hc1
    have hhit := cacheGet_cacheSet_hit cache now now2 (defaultImageKey env.useSIG d) imageID
      imageExpirationInterval hwin
    simp only [Provider.GetLatestImageID, hhit]

/-- Witness for amended C3: after the latest-mode custom resolution at
instant 0, the call at instant 5 returns the same ID from the cache with
no remote call; same for the SIG-mode GetLatestImageID. -/
theorem cached_entry_points_idempotent_witness :
    Provider.GetCustomImageID envCIG
      (cacheSet [] 0 (customImageCacheKey termLatest) "/img/v2" imageExpirationInterval)
      5 termLatest =
      (.ok "/img/v2",
       cacheSet [] 0 (customImageCacheKey termLatest) "/img/v2" imageExpirationInterval, []) ∧
    Provider.GetLatestImageID envSIG
      (cacheSet [] 0 "gal/DEF" (sharedImageGalleryImageID "sigsub" "rg" "gal" "DEF" "7.7.7")
        imageExpirationInterval)
      5 famEntry =
      (.ok (sharedImageGalleryImageID "sigsub" "rg" "gal" "DEF" "7.7.7"),
       cacheSet [] 0 "gal/DEF" (sharedImageGalleryImageID "sigsub" "rg" "gal" "DEF" "7.7.7")
         imageExpirationInterval, []) := by
  constructor
  · exact (cached_entry_points_idempotent envCIG [] 0 5 termLatest famEntry (by decide)).1
      "/img/v2"
      (cacheSet [] 0 (customImageCacheKey termLatest) "/img/v2" imageExpirationInterval)
      [RemoteCall.galleryList "grg" "g" "myimg"] rfl rfl
  · exact (cached_entry_points_idempotent envSIG [] 0 5 termLatest famEntry (by decide)).2
      (sharedImageGalleryImageID "sigsub" "rg" "gal" "DEF" "7.7.7")
      (cacheSet [] 0 "gal/DEF" (sharedImageGalleryImageID "sigsub" "rg" "gal" "DEF" "7.7.7")
        imageExpirationInterval)
      [RemoteCall.nodeImageList "eastus" "sub0"] rfl rfl

/-- A community listing whose latest date 9 is attained twice, the
first-seen candidate being "b" on the second page. -/
def envTie : ProviderEnv :=
  { envCIG with communityPages := fun _ _ _ =>
      [Except.ok [{ name := "a", publishedDate := 5 }],
       Except.ok [{ name := "b", publishedDate := 9 }, { name := "c", publishedDate := 9 }]] }

/-- A community listing that succeeds with zero version records. -/
def envNoVersions : ProviderEnv :=
  { envCIG with communityPages := fun _ _ _ => [Except.ok [], Except.ok []] }

/-- A catalog entry whose image definition matches no SIG SKU in the
fixture list. -/
def famEntryOther : DefaultImageOutput := { famEntry with imageDefinition := "OTHER" }

/-- Claim C6: for every community-catalog listing (any page boundaries,
any record order) the community resolver returns the version record with
the maximum publish timestamp, keeping the first-seen candidate among
equal timestamps (strictly-greater comparison); a listing with zero
versions resolves to the empty name and the resolver returns, without
failing, an image reference with an empty version segment. -/
theorem community_latest_version_selection
    (env : ProviderEnv) (g n : String) (rs : List CommunityGalleryImageVersion)
    (hflat : flattenPages (env.communityPages env.location g n) = some rs) :
    (rs = [] →
      Provider.latestNodeImageVersionCommunity env g n =
        (.ok "", [RemoteCall.communityList env.location g n]) ∧
      Provider.getCIGImageID env g n =
        (.ok (BuildImageIDCIG g n ""), [RemoteCall.communityList env.location g n])) ∧
    (∀ r rest, rs = r :: rest →
      ∃ m pre post, rs = pre ++ m :: post ∧
        Provider.latestNodeImageVersionCommunity env g n =
          (.ok m.name, [RemoteCall.communityList env.location g n]) ∧
        (∀ s ∈ rs, s.publishedDate ≤ m.publishedDate) ∧
        (∀ s ∈ pre, s.publishedDate < m.publishedDate)) := by
  have hfold := pagedFold_flatten CommunityGalleryImageVersion.publishedDate
    (env.communityPages env.location g n) rs none hflat
  constructor
  · intro hnil
    subst hnil
    constructor
    · simp only [Provider.latestNodeImageVersionCommunity, hfold, List.foldl_nil]
    · simp only [Provider.getCIGImageID, Provider.latestNodeImageVersionCommunity,
        hfold, List.foldl_nil]
  · intro r rest hcons
    subst hcons
    obtain ⟨m, pre, post, hfoldm, hsplit, hmax, hpre⟩ :=
      foldl_pickStep_cons CommunityGalleryImageVersion.publishedDate r rest
    refine ⟨m, pre, post, hsplit, ?_, hmax, hpre⟩
    simp only [Provider.latestNodeImageVersionCommunity, hfold, hfoldm]

/-- Witness for C6: the empty two-page listing resolves to the empty
version segment without failing; a listing with a duplicated maximal
date resolves to the first record attaining it. -/
theorem community_latest_version_selection_witness :
    (Provider.latestNodeImageVersionCommunity envNoVersions "URL" "DEF" =
       (.ok "", [RemoteCall.communityList "eastus" "URL" "DEF"]) ∧
     Provider.getCIGImageID envNoVersions "URL" "DEF" =
       (.ok (BuildImageIDCIG "URL" "DEF" ""), [RemoteCall.communityList "eastus" "URL" "DEF"])) ∧
    (∃ m pre post,
      ([{ name := "a", publishedDate := 5 }, { name := "b", publishedDate := 9 },
        { name := "c", publishedDate := 9 }] : List CommunityGalleryImageVersion) =
          pre ++ m :: post ∧
      Provider.latestNodeImageVersionCommunity envTie "URL" "DEF" =
        (.ok m.name, [RemoteCall.communityList "eastus" "URL" "DEF"]) ∧
      (∀ s ∈ ([{ name := "a", publishedDate := 5 }, { name := "b", publishedDate := 9 },
        { name := "c", publishedDate := 9 }] : List CommunityGalleryImageVersion),
        s.publishedDate ≤ m.publishedDate) ∧
      (∀ s ∈ pre, s.publishedDate < m.publishedDate)) := by
  constructor
  · exact (community_latest_version_selection envNoVersions "URL" "DEF" [] rfl).1 rfl
  · exact (community_latest_version_selection envTie "URL" "DEF"
      [{ name := "a", publishedDate := 5 }, { name := "b", publishedDate := 9 },
       { name := "c", publishedDate := 9 }] rfl).2
      { name := "a", publishedDate := 5 }
      [{ name := "b", publishedDate := 9 }, { name := "c", publishedDate := 9 }] rfl

/-- Claim C7: for every pre-fetched shared-gallery version list, if some
record's SKU equals the descriptor's image definition the resolver
returns the shared-gallery resource path built from the first such
record's version; with no matching SKU it fails with an error naming the
image definition, and it fails only in that case. -/
theorem sig_resolution_first_sku_match_iff
    (env : ProviderEnv) (stub : DefaultImageOutput) (versions : List NodeImageVersion)
    (hlist : env.nodeImageList env.location env.subscription = .ok versions) :
    (∀ pre v post, versions = pre ++ v :: post →
      stub.imageDefinition = v.sku →
      (∀ w ∈ pre, stub.imageDefinition ≠ w.sku) →
      Provider.getSIGImageID env stub =
        (.ok (sharedImageGalleryImageID env.sigSubscriptionID stub.galleryResourceGroup
           stub.galleryName stub.imageDefinition v.version),
         [RemoteCall.nodeImageList env.location env.subscription])) ∧
    ((∀ w ∈ versions, stub.imageDefinition ≠ w.sku) →
      Provider.getSIGImageID env stub =
        (.error (noMatchingVersionError stub.imageDefinition),
         [RemoteCall.nodeImageList env.location env.subscription])) ∧
    (∀ e tr, Provider.getSIGImageID env stub = (.error e, tr) →
      ∀ w ∈ versions, stub.imageDefinition ≠ w.sku) := by
  refine ⟨?_, ?_, ?_⟩
  · intro pre v post hsplit hv hpre
    have hfind : versions.find? (fun w => stub.imageDefinition == w.sku) = some v :=
      (find?_eq_some_first _ versions v).mpr
        ⟨pre, post, hsplit, beq_iff_eq.mpr hv, fun w hw => beq_eq_false_iff_ne.mpr (hpre w hw)⟩
    simp only [Provider.getSIGImageID, hlist, hfind]
  · intro hall
    have hfind : versions.find? (fun w => stub.imageDefinition == w.sku) = none :=
      List.find?_eq_none.mpr (fun w hw => by simp [hall w hw])
    simp only [Provider.getSIGImageID, hlist, hfind]
  · intro e tr h w hw
    cases hfind : versions.find? (fun x => stub.imageDefinition == x.sku) with
    | some v =>
      simp only [Provider.getSIGImageID, hlist, hfind, Prod.mk.injEq] at h
      exact absurd h.1 (by simp)
    | none =>
      have := List.find?_eq_none.mp hfind w hw
      simpa using this

/-- Witness for C7: the fixture SIG list matches SKU DEF on its first
record and yields the shared-gallery path; an OTHER image definition
yields the naming error, and from that error conjunct three recovers the
absence of a matching SKU. -/
theorem sig_resolution_first_sku_match_iff_witness :
    Provider.getSIGImageID envSIG famEntry =
      (.ok (sharedImageGalleryImageID "sigsub" "rg" "gal" "DEF" "7.7.7"),
       [RemoteCall.nodeImageList "eastus" "sub0"]) ∧
    Provider.getSIGImageID envSIG famEntryOther =
      (.error (noMatchingVersionError "OTHER"), [RemoteCall.nodeImageList "eastus" "sub0"]) ∧
    (∀ w ∈ ([{ sku := "DEF", version := "7.7.7" }] : List NodeImageVersion),
      famEntryOther.imageDefinition ≠ w.sku) := by
  refine ⟨?_, ?_, ?_⟩
  · exact ((sig_resolution_first_sku_match_iff envSIG famEntry
      [{ sku := "DEF", version := "7.7.7" }] rfl).1
      [] { sku := "DEF", version := "7.7.7" } [] rfl rfl (by simp)).trans rfl
  · exact (sig_resolution_first_sku_match_iff envSIG famEntryOther
      [{ sku := "DEF", version := "7.7.7" }] rfl).2.1 (by decide)
  · exact (sig_resolution_first_sku_match_iff envSIG famEntryOther
      [{ sku := "DEF", version := "7.7.7" }] rfl).2.2
      (noMatchingVersionError "OTHER") [RemoteCall.nodeImageList "eastus" "sub0"] rfl

/-- Claim C8: for every custom image term on a cache miss, a non-empty
term version issues exactly one point lookup (and no listing call),
propagating any lookup error directly; an empty term version issues one
paginated listing call and returns the ID of the entry with the latest
publish timestamp. -/
theorem custom_image_pinned_vs_latest
    (env : ProviderEnv) (cache : Cache) (now : Nat) (term : CustomImageTerm)
    (hmiss : cacheGet cache now (customImageCacheKey term) = none) :
    (term.version ≠ "" →
      Provider.GetCustomImageID env cache now term =
        (match env.galleryGet term.galleryResourceGroupName term.galleryName
            term.name term.version with
         | .error e =>
           (.err e, cache,
            [RemoteCall.galleryPointGet term.galleryResourceGroupName term.galleryName
               term.name term.version])
         | .ok gv =>
           (.ok gv.id,
            cacheSet cache now (customImageCacheKey term) gv.id imageExpirationInterval,
            [RemoteCall.galleryPointGet term.galleryResourceGroupName term.galleryName
               term.name term.version]))) ∧
    (term.version = "" →
      ∀ rs r rest,
        flattenPages (env.galleryListPages term.galleryResourceGroupName term.galleryName
          term.name) = some rs →
        rs = r :: rest →
        ∃ m pre post, rs = pre ++ m :: post ∧
          (∀ s ∈ rs, s.publishedDate ≤ m.publishedDate) ∧
          (∀ s ∈ pre, s.publishedDate < m.publishedDate) ∧
          Provider.GetCustomImageID env cache now term =
            (.ok m.id,
             cacheSet cache now (customImageCacheKey term) m.id imageExpirationInterval,
             [RemoteCall.galleryList term.galleryResourceGroupName term.galleryName
                term.name])) := by
  constructor
  · intro hv
    simp only [Provider.GetCustomImageID, hmiss, if_pos hv]
  · intro hv rs r rest hflat hcons
    subst hcons
    have hfold := pagedFold_flatten GalleryImageVersion.publishedDate
      (env.galleryListPages term.galleryResourceGroupName term.galleryName term.name)
      (r :: rest) none hflat
    obtain ⟨m, pre, post, hfoldm, hsplit, hmax, hpre⟩ :=
      foldl_pickStep_cons GalleryImageVersion.publishedDate r rest
    refine ⟨m, pre, post, hsplit, hmax, hpre, ?_⟩
    simp only [Provider.GetCustomImageID, hmiss, hv, ne_eq, not_true_eq_false, if_false,
      hfold, hfoldm]

/-- Witness for C8: the pinned fixture term resolves through the point
lookup and caches /pinned/1.2.3; the latest fixture term resolves
through the listing and picks /img/v2 (date 3 over date 1). -/
theorem custom_image_pinned_vs_latest_witness :
    Provider.GetCustomImageID envCIG [] 0 termPinned =
      (.ok "/pinned/1.2.3",
       cacheSet [] 0 (customImageCacheKey termPinned) "/pinned/1.2.3" imageExpirationInterval,
       [RemoteCall.galleryPointGet "grg" "g" "myimg" "1.2.3"]) ∧
    (∃ m pre post,
      ([{ id := "/img/v1", publishedDate := 1 }, { id := "/img/v2", publishedDate := 3 }] :
        List GalleryImageVersion) = pre ++ m :: post ∧
      (∀ s ∈ ([{ id := "/img/v1", publishedDate := 1 },
               { id := "/img/v2", publishedDate := 3 }] : List GalleryImageVersion),
        s.publishedDate ≤ m.publishedDate) ∧
      (∀ s ∈ pre, s.publishedDate < m.publishedDate) ∧
      Provider.GetCustomImageID envCIG [] 0 termLatest =
        (.ok m.id,
         cacheSet [] 0 (customImageCacheKey termLatest) m.id imageExpirationInterval,
         [RemoteCall.galleryList "grg" "g" "myimg"])) := by
  constructor
  · exact ((custom_image_pinned_vs_latest envCIG [] 0 termPinned rfl).1 (by decide)).trans rfl
  · exact (custom_image_pinned_vs_latest envCIG [] 0 termLatest rfl).2 rfl
      [{ id := "/img/v1", publishedDate := 1 }, { id := "/img/v2", publishedDate := 3 }]
      { id := "/img/v1", publishedDate := 1 }
      [{ id := "/img/v2", publishedDate := 3 }] rfl rfl

/-- Claim C9: when the underlying remote lookup fails, no cache entry is
written (the cache is returned unchanged), the error is propagated, and
a later call with the same key performs the remote lookup again. -/
theorem failed_lookup_not_cached_and_retried
    (env : ProviderEnv) (cache : Cache) (now now2 : Nat)
    (d : DefaultImageOutput) (term : CustomImageTerm) (hle : now ≤ now2) :
    (∀ e tr, cacheGet cache now (defaultImageKey env.useSIG d) = none →
      Provider.resolveImageID env d env.useSIG = (.error e, tr) →
      Provider.GetLatestImageID env cache now d = (.error e, cache, tr) ∧
      Provider.GetLatestImageID env cache now2 d = (.error e, cache, tr)) ∧
    (∀ e, cacheGet cache now (customImageCacheKey term) = none → term.version ≠ "" →
      env.galleryGet term.galleryResourceGroupName term.galleryName term.name term.version
        = .error e →
      Provider.GetCustomImageID env cache now term =
        (.err e, cache,
         [RemoteCall.galleryPointGet term.galleryResourceGroupName term.galleryName
            term.name term.version]) ∧
      Provider.GetCustomImageID env cache now2 term =
        (.err e, cache,
         [RemoteCall.galleryPointGet term.galleryResourceGroupName term.galleryName
            term.name term.version])) ∧
    (∀ e, cacheGet cache now (customImageCacheKey term) = none → term.version = "" →
      pagedFold GalleryImageVersion.publishedDate
        (env.galleryListPages term.galleryResourceGroupName term.galleryName term.name) none
        = .error e →
      Provider.GetCustomImageID env cache now term =
        (.err e, cache,
         [RemoteCall.galleryList term.galleryResourceGroupName term.galleryName term.name]) ∧
      Provider.GetCustomImageID env cache now2 term =
        (.err e, cache,
         [RemoteCall.galleryList term.galleryResourceGroupName term.galleryName
            term.name])) := by
  refine ⟨?_, ?_, ?_⟩
  · intro e tr hmiss herr
    have hmiss2 := cacheGet_none_mono cache now now2 _ hmiss hle
    constructor
    · simp only [Provider.GetLatestImageID, hmiss, herr]
    · simp only [Provider.GetLatestImageID, hmiss2, herr]
  · intro e hmiss hv herr
    have hmiss2 := cacheGet_none_mono cache now now2 _ hmiss hle
    constructor
    · simp only [Provider.GetCustomImageID, hmiss, if_pos hv, herr]
    · simp only [Provider.GetCustomImageID, hmiss2, if_pos hv, herr]
  · intro e hmiss hv herr
    have hmiss2 := cacheGet_none_mono cache now now2 _ hmiss hle
    constructor
    · simp only [Provider.GetCustomImageID, hmiss, hv, ne_eq, not_true_eq_false, if_false, herr]
    · simp only [Provider.GetCustomImageID, hmiss2, hv, ne_eq, not_true_eq_false, if_false, herr]

/-- Witness for C9: in a remote world where every lookup fails, the
GetLatestImageID call at instant 0 and the retry at instant 7 both
propagate the error with the cache unchanged, and likewise for the
pinned and latest custom paths. -/
theorem failed_lookup_not_cached_and_retried_witness :
    (Provider.GetLatestImageID envErr [] 0 famEntry =
       (.error "community boom", [], [RemoteCall.communityList "eastus" "URL" "DEF"]) ∧
     Provider.GetLatestImageID envErr [] 7 famEntry =
       (.error "community boom", [], [RemoteCall.communityList "eastus" "URL" "DEF"])) ∧
    (Provider.GetCustomImageID envErr [] 0 termPinned =
       (.err "point denied", [], [RemoteCall.galleryPointGet "grg" "g" "myimg" "1.2.3"]) ∧
     Provider.GetCustomImageID envErr [] 7 termPinned =
       (.err "point denied", [], [RemoteCall.galleryPointGet "grg" "g" "myimg" "1.2.3"])) ∧
    (Provider.GetCustomImageID envErr [] 0 termLatest =
       (.err "list boom", [], [RemoteCall.galleryList "grg" "g" "myimg"]) ∧
     Provider.GetCustomImageID envErr [] 7 termLatest =
       (.err "list boom", [], [RemoteCall.galleryList "grg" "g" "myimg"])) := by
  refine ⟨?_, ?_, ?_⟩
  · exact (failed_lookup_not_cached_and_retried envErr [] 0 7 famEntry termPinned
      (by decide)).1 "community boom" [RemoteCall.communityList "eastus" "URL" "DEF"] rfl rfl
  · exact (failed_lookup_not_cached_and_retried envErr [] 0 7 famEntry termPinned
      (by decide)).2.1 "point denied" rfl (by decide) rfl
  · exact (failed_lookup_not_cached_and_retried envErr [] 0 7 famEntry termLatest
      (by decide)).2.2 "list boom" rfl rfl rfl

/-- Claim C10: with an empty term version, a cache miss, and a gallery
listing that completes successfully with zero records, GetCustomImageID
dereferences the zero-value seed candidate's nil ID pointer: it neither
returns a value nor an error but crashes. -/
theorem custom_image_empty_listing_crashes
    (env : ProviderEnv) (cache : Cache) (now : Nat) (term : CustomImageTerm)
    (hmiss : cacheGet cache now (customImageCacheKey term) = none)
    (hver : term.version = "")
    (hempty : flattenPages (env.galleryListPages term.galleryResourceGroupName
      term.galleryName term.name) = some []) :
    Provider.GetCustomImageID env cache now term =
      (.crash nilIDDereference, cache,
       [RemoteCall.galleryList term.galleryResourceGroupName term.galleryName term.name]) := by
  have hfold := pagedFold_flatten GalleryImageVersion.publishedDate
    (env.galleryListPages term.galleryResourceGroupName term.galleryName term.name)
    [] none hempty
  simp only [Provider.GetCustomImageID, hmiss, hver, ne_eq, not_true_eq_false, if_false,
    hfold, List.foldl_nil]

/-- Witness for C10: the fixture world whose single listing page is
empty crashes the latest-mode custom resolution. -/
theorem custom_image_empty_listing_crashes_witness :
    Provider.GetCustomImageID envEmptyList [] 0 termLatest =
      (.crash nilIDDereference, [], [RemoteCall.galleryList "grg" "g" "myimg"]) :=
  custom_image_empty_listing_crashes envEmptyList [] 0 termLatest rfl rfl rfl
